import Mathlib

/-!
# Verification of the view-to-normalized-camera transformation stage

This development embeds, in Lean 4, the view-to-camera pipeline stage of the
`renderer_12_js` renderer:

* `build` — the perspective normalize-matrix factory
  (`src/renderer/scene/PerspectiveNormalizeMatrix.js`), together with its
  JavaScript-level argument guard (`typeof ... != "number"`), and
* `view2cameraModel` / `view2cameraPosition` / `view2cameraNestedModel` —
  the vertex/model/position tree transformers of the pipeline stage.

JavaScript numbers on the pure numeric paths are idealized as exact rationals
(`ℚ`).  For the argument guard, `JSVal`/`JSNum` model the JavaScript value
domain far enough to distinguish non-numbers from numbers and finite numbers
from `NaN`/`±Infinity` (signed zero is collapsed to `0`).

The `Matrix`/`Vector`/`Vertex` numeric library and the `Model`/`Position`/
`Camera` scene containers are collaborators of this stage whose sources are
not part of the embedded files; they are modelled from the specification's
data model (standard homogeneous row-dot-column matrix semantics, plain
record containers), and each such definition is marked `Modelled from the
spec:` in its doc comment.
-/

namespace Renderer

/-- Modelled from the spec: a 4-component homogeneous vector, as consumed by
`Matrix.buildFromColumns` (the `Vector` class is not among the embedded
sources). Generic in the scalar type so the same matrix algebra serves both
the exact-rational path and the JavaScript-number path. -/
structure Vector (α : Type) where
  x : α
  y : α
  z : α
  w : α
deriving DecidableEq, Repr

/-- Modelled from the spec: a point in 3-space, interpreted in homogeneous
form (w = 1) for matrix multiplication (the `Vertex` class is not among the
embedded sources). -/
structure Vertex where
  x : ℚ
  y : ℚ
  z : ℚ
deriving DecidableEq, Repr

/-- Modelled from the spec: a 4×4 homogeneous transform, built from four
column vectors (the `Matrix` class is not among the embedded sources).
Stored column-major, mirroring `Matrix.buildFromColumns`. -/
structure Matrix (α : Type) where
  c1 : Vector α
  c2 : Vector α
  c3 : Vector α
  c4 : Vector α
deriving DecidableEq, Repr

/-- Modelled from the spec: `Matrix.buildFromColumns` assembles a matrix from
its four columns. -/
def Matrix.buildFromColumns {α : Type} (v1 v2 v3 v4 : Vector α) : Matrix α :=
  ⟨v1, v2, v3, v4⟩

/-- Modelled from the spec: matrix × vector with standard row-dot-column
semantics (row i of the matrix dotted with the vector). -/
def Matrix.timesVector {α : Type} [Add α] [Mul α] (m : Matrix α) (v : Vector α) :
    Vector α :=
  ⟨m.c1.x * v.x + m.c2.x * v.y + m.c3.x * v.z + m.c4.x * v.w,
   m.c1.y * v.x + m.c2.y * v.y + m.c3.y * v.z + m.c4.y * v.w,
   m.c1.z * v.x + m.c2.z * v.y + m.c3.z * v.z + m.c4.z * v.w,
   m.c1.w * v.x + m.c2.w * v.y + m.c3.w * v.z + m.c4.w * v.w⟩

/-- Modelled from the spec: matrix × matrix with standard row-dot-column
semantics; column j of `m.timesMatrix n` is `m` applied to column j of `n`,
so `m.timesMatrix n` is the product `m * n` (this matrix applied second). -/
def Matrix.timesMatrix {α : Type} [Add α] [Mul α] (m n : Matrix α) : Matrix α :=
  ⟨m.timesVector n.c1, m.timesVector n.c2, m.timesVector n.c3, m.timesVector n.c4⟩

/-- Modelled from the spec: `Matrix.timesVertex` returns the new `Vertex`
equal to matrix × (x, y, z, 1) with the result's w-component discarded
(the perspective divide belongs to a later stage). -/
def Matrix.timesVertex (m : Matrix ℚ) (v : Vertex) : Vertex :=
  ⟨m.c1.x * v.x + m.c2.x * v.y + m.c3.x * v.z + m.c4.x * 1,
   m.c1.y * v.x + m.c2.y * v.y + m.c3.y * v.z + m.c4.y * 1,
   m.c1.z * v.x + m.c2.z * v.y + m.c3.z * v.z + m.c4.z * 1⟩

/-- The numeric core of `build` from
`src/renderer/scene/PerspectiveNormalizeMatrix.js` lines 111–125: the skew
matrix `m1`, the scale matrix `m2`, and the product `m2.timesMatrix(m1)`.
Generic in the scalar type; instantiated at `ℚ` (the idealized numeric path)
and at `JSNum` (the JavaScript-number path behind the argument guard). -/
def buildCore {α : Type} [Add α] [Sub α] [Mul α] [Div α]
    [OfNat α 0] [OfNat α 1] [OfNat α 2] (l r b t : α) : Matrix α :=
  let m1 := Matrix.buildFromColumns
              ⟨1, 0, 0, 0⟩
              ⟨0, 1, 0, 0⟩
              ⟨(r + l) / 2, (t + b) / 2, 1, 0⟩
              ⟨0, 0, 0, 1⟩
  let m2 := Matrix.buildFromColumns
              ⟨2 / (r - l), 0, 0, 0⟩
              ⟨0, 2 / (t - b), 0, 0⟩
              ⟨0, 0, 1, 0⟩
              ⟨0, 0, 0, 1⟩
  m2.timesMatrix m1

/-- `build(l, r, b, t)` on numeric arguments
(`src/renderer/scene/PerspectiveNormalizeMatrix.js` lines 103–126), with
JavaScript numbers idealized as exact rationals. -/
def build (l r b t : ℚ) : Matrix ℚ :=
  buildCore l r b t

/-- The skew matrix exactly as the claim describes it: the identity except
that its third column is ((r+l)/2, (t+b)/2, 1, 0). Stated from the spec's
words, to be compared with the `m1` constructed by `build`. -/
def skewMatrixSpec (l r b t : ℚ) : Matrix ℚ :=
  ⟨⟨1, 0, 0, 0⟩, ⟨0, 1, 0, 0⟩, ⟨(r + l) / 2, (t + b) / 2, 1, 0⟩, ⟨0, 0, 0, 1⟩⟩

/-- The scale matrix exactly as the claim describes it: diagonal with entries
(2/(r−l), 2/(t−b), 1, 1). Stated from the spec's words, to be compared with
the `m2` constructed by `build`. -/
def scaleMatrixSpec (l r b t : ℚ) : Matrix ℚ :=
  ⟨⟨2 / (r - l), 0, 0, 0⟩, ⟨0, 2 / (t - b), 0, 0⟩, ⟨0, 0, 1, 0⟩, ⟨0, 0, 0, 1⟩⟩

/-! ## The JavaScript number domain and the argument guard of `build`

`build` (lines 105–109 of `PerspectiveNormalizeMatrix.js`) throws
`"L, R, B, T, and near must be numerical"` exactly when `typeof` of some
argument is not `"number"`.  In JavaScript, `NaN` and `±Infinity` are of type
`"number"`, so they pass this guard.  `JSNum` models the JavaScript number
line (exact finite rationals plus `NaN` and the two infinities, signed zero
collapsed to `0`), with IEEE-754 extended arithmetic so that the matrix is
still constructed on non-finite inputs, just as the source does. -/

/-- A JavaScript number: a finite value (idealized as an exact rational),
`NaN`, or one of the two infinities. Signed zero is collapsed to `fin 0`. -/
inductive JSNum where
  | fin : ℚ → JSNum
  | nan : JSNum
  | posInf : JSNum
  | negInf : JSNum
deriving DecidableEq, Repr

/-- IEEE-754 negation on the JavaScript number line. -/
def JSNum.neg : JSNum → JSNum
  | .fin a => .fin (-a)
  | .nan => .nan
  | .posInf => .negInf
  | .negInf => .posInf

/-- IEEE-754 addition on the JavaScript number line. -/
def JSNum.add : JSNum → JSNum → JSNum
  | .nan, _ => .nan
  | _, .nan => .nan
  | .posInf, .negInf => .nan
  | .negInf, .posInf => .nan
  | .posInf, _ => .posInf
  | _, .posInf => .posInf
  | .negInf, _ => .negInf
  | _, .negInf => .negInf
  | .fin a, .fin b => .fin (a + b)

/-- IEEE-754 subtraction: `a - b = a + (-b)`. -/
def JSNum.sub (a b : JSNum) : JSNum :=
  a.add b.neg

/-- IEEE-754 multiplication on the JavaScript number line
(`0 * ±Infinity = NaN`). -/
def JSNum.mul : JSNum → JSNum → JSNum
  | .nan, _ => .nan
  | _, .nan => .nan
  | .posInf, .posInf => .posInf
  | .posInf, .negInf => .negInf
  | .negInf, .posInf => .negInf
  | .negInf, .negInf => .posInf
  | .posInf, .fin a => if 0 < a then .posInf else if a < 0 then .negInf else .nan
  | .fin a, .posInf => if 0 < a then .posInf else if a < 0 then .negInf else .nan
  | .negInf, .fin a => if 0 < a then .negInf else if a < 0 then .posInf else .nan
  | .fin a, .negInf => if 0 < a then .negInf else if a < 0 then .posInf else .nan
  | .fin a, .fin b => .fin (a * b)

/-- IEEE-754 division on the JavaScript number line, with signed zero
collapsed: a nonzero finite value divided by `0` gives the infinity carrying
the numerator's sign (JavaScript's `x / +0`), `0 / 0 = NaN`,
`±Infinity / ±Infinity = NaN`, and a finite value over an infinity is `0`. -/
def JSNum.div : JSNum → JSNum → JSNum
  | .nan, _ => .nan
  | _, .nan => .nan
  | .posInf, .posInf => .nan
  | .posInf, .negInf => .nan
  | .negInf, .posInf => .nan
  | .negInf, .negInf => .nan
  | .posInf, .fin b => if 0 ≤ b then .posInf else .negInf
  | .negInf, .fin b => if 0 ≤ b then .negInf else .posInf
  | .fin _, .posInf => .fin 0
  | .fin _, .negInf => .fin 0
  | .fin a, .fin b =>
      if b = 0 then (if 0 < a then .posInf else if a < 0 then .negInf else .nan)
      else .fin (a / b)

instance : Add JSNum := ⟨JSNum.add⟩

instance : Sub JSNum := ⟨JSNum.sub⟩

instance : Mul JSNum := ⟨JSNum.mul⟩

instance : Div JSNum := ⟨JSNum.div⟩

instance (n : ℕ) : OfNat JSNum n := ⟨.fin (OfNat.ofNat n)⟩

/-- A JavaScript value, modelled far enough to express the `typeof` guard of
`build`: a number (of any of the `JSNum` kinds), a string, a boolean, or
`undefined`. -/
inductive JSVal where
  | num : JSNum → JSVal
  | str : String → JSVal
  | boolean : Bool → JSVal
  | undef : JSVal
deriving DecidableEq, Repr

/-- Whether `typeof v == "number"` holds in JavaScript: true exactly for the
`num` values, including `NaN` and the infinities. -/
def JSVal.typeofIsNumber : JSVal → Bool
  | .num _ => true
  | _ => false

/-- `build(l, r, b, t)` over JavaScript values
(`src/renderer/scene/PerspectiveNormalizeMatrix.js` lines 103–126): if
`typeof` of any argument is not `"number"` the guard throws
`"L, R, B, T, and near must be numerical"`; otherwise the two matrices are
constructed and multiplied in JavaScript-number arithmetic. -/
def buildJS : JSVal → JSVal → JSVal → JSVal → Except String (Matrix JSNum)
  | .num ln, .num rn, .num bn, .num tn => .ok (buildCore ln rn bn tn)
  | _, _, _, _ => .error "L, R, B, T, and near must be numerical"

/-- Whether an `Except` computation succeeded (did not throw). -/
def exceptIsOk {ε α : Type} : Except ε α → Bool
  | .ok _ => true
  | .error _ => false

/-! ## The scene containers and the view-to-camera stage -/

/-- Modelled from the spec: a primitive is a list of index references into
its model's vertex list, opaque to this stage (the `Primitive` classes are
not among the embedded sources). -/
structure Primitive where
  vIndexList : List ℕ
deriving DecidableEq, Repr

/-- Modelled from the spec: a color, opaque to this stage (the `Color` class
is not among the embedded sources). -/
structure Color where
  red : ℚ
  green : ℚ
  blue : ℚ
deriving DecidableEq, Repr

/-- Modelled from the spec: the orthographic normalize matrix — translate
the view volume's centerline to the z-axis by (−(r+l)/2, −(t+b)/2), then
scale by 2/(r−l) and 2/(t−b) (the `OrthoNorm` builder is not among the
embedded sources). -/
def orthoBuild (l r b t : ℚ) : Matrix ℚ :=
  let translate := Matrix.buildFromColumns
    ⟨1, 0, 0, 0⟩ ⟨0, 1, 0, 0⟩ ⟨0, 0, 1, 0⟩ ⟨-((r + l) / 2), -((t + b) / 2), 0, 1⟩
  let scale := Matrix.buildFromColumns
    ⟨2 / (r - l), 0, 0, 0⟩ ⟨0, 2 / (t - b), 0, 0⟩ ⟨0, 0, 1, 0⟩ ⟨0, 0, 0, 1⟩
  scale.timesMatrix translate

/-- Modelled from the spec: a Camera holds the `perspective` flag, the four
view-volume bounds and the near distance (the `Camera` class is not among
the embedded sources). -/
structure Camera where
  perspective : Bool
  left : ℚ
  right : ℚ
  bottom : ℚ
  top : ℚ
  n : ℚ
deriving DecidableEq, Repr

/-- Modelled from the spec: the camera's derived normalize matrix, a pure
function of the bounds and the perspective flag — the perspective builder
`build` or the orthographic builder, on the camera's bounds. -/
def Camera.getNormalizeMatrix (c : Camera) : Matrix ℚ :=
  if c.perspective then build c.left c.right c.bottom c.top
  else orthoBuild c.left c.right c.bottom c.top

/-- Modelled from the spec: a Model is an ordered vertex list, a primitive
list, a color list, a local transform matrix, an ordered list of nested
Models, a name and a visible flag — the constructor-argument order mirrors
the `new Model(...)` calls in the embedded sources (the `Model` class itself
is not among them). -/
inductive Model where
  | mk (vertexList : List Vertex) (primitiveList : List Primitive)
       (colorList : List Color) (matrix : Matrix ℚ) (nestedModels : List Model)
       (name : String) (visible : Bool)

/-- The model's ordered vertex list. -/
def Model.vertexList : Model → List Vertex
  | .mk v _ _ _ _ _ _ => v

/-- The model's primitive list. -/
def Model.primitiveList : Model → List Primitive
  | .mk _ p _ _ _ _ _ => p

/-- The model's color list. -/
def Model.colorList : Model → List Color
  | .mk _ _ c _ _ _ _ => c

/-- The model's local transform matrix. -/
def Model.matrix : Model → Matrix ℚ
  | .mk _ _ _ m _ _ _ => m

/-- The model's ordered list of nested models. -/
def Model.nestedModels : Model → List Model
  | .mk _ _ _ _ n _ _ => n

/-- The model's name. -/
def Model.name : Model → String
  | .mk _ _ _ _ _ s _ => s

/-- The model's visible flag. -/
def Model.visible : Model → Bool
  | .mk _ _ _ _ _ _ b => b

/-- Modelled from the spec: a Position is a name, one Model, and an ordered
list of nested Positions (the `Position` class is not among the embedded
sources). -/
inductive Position where
  | mk (model : Model) (name : String) (nestedPositions : List Position)

/-- The position's model. -/
def Position.model : Position → Model
  | .mk m _ _ => m

/-- The position's name. -/
def Position.name : Position → String
  | .mk _ s _ => s

/-- The position's ordered list of nested positions. -/
def Position.nestedPositions : Position → List Position
  | .mk _ _ n => n

/-- `view2cameraModel(model, camera)` from the pipeline source, lines 59–143:
fetch the camera's normalize matrix, push `normalizeMatrix.timesVertex(v)`
for each vertex `v` in order (the `for ... push` loop builds exactly the
mapped list), and return a new Model carrying the remaining six constructor
arguments over from the input unchanged. -/
def view2cameraModel (model : Model) (camera : Camera) : Model :=
  let normalizeMatrix := camera.getNormalizeMatrix
  let newVertexList := model.vertexList.map (fun v => normalizeMatrix.timesVertex v)
  .mk newVertexList
      model.primitiveList
      model.colorList
      model.matrix
      model.nestedModels
      model.name
      model.visible

/-- `view2cameraNestedModel(model, camera)` from the pipeline source, lines
185–213: transform this model's own vertices via `view2cameraModel`, push
the recursive transform of each nested model in order into a new nested-model
list (the `for ... push` loop builds exactly the mapped list), and return a
new Model built from `mod2`'s fields with the new nested-model list. -/
def view2cameraNestedModel : Model → Camera → Model
  | .mk vl pl cl mx nested nm vis, camera =>
    let mod2 := view2cameraModel (.mk vl pl cl mx nested nm vis) camera
    .mk mod2.vertexList
        mod2.primitiveList
        mod2.colorList
        mod2.matrix
        (nested.attach.map (fun x => view2cameraNestedModel x.1 camera))
        mod2.name
        mod2.visible
termination_by m _ => sizeOf m
decreasing_by
  have h := List.sizeOf_lt_of_mem x.2
  simp only [Model.mk.sizeOf_spec]
  omega

/-- `view2cameraPosition(position, camera)` from the pipeline source, lines
155–173: start from `Position.buildFromModelName(position.model,
position.name)` (same model, same name, empty nested list), replace the model
by `view2cameraNestedModel(position.model, camera)` only when
`position.model.visible`, then append the recursive transform of every nested
position, in order (the `addNestedPosition` loop builds exactly the mapped
list). -/
def view2cameraPosition : Position → Camera → Position
  | .mk model name nestedPositions, camera =>
    let newModel := if model.visible then view2cameraNestedModel model camera else model
    .mk newModel name (nestedPositions.attach.map (fun x => view2cameraPosition x.1 camera))
termination_by p _ => sizeOf p
decreasing_by
  have h := List.sizeOf_lt_of_mem x.2
  simp only [Position.mk.sizeOf_spec]
  omega

/-! ## Pre-order traversal observations, for the topology claims -/

/-- The number of nodes of a position tree. -/
def Position.nodeCount : Position → ℕ
  | .mk _ _ nested => 1 + (nested.attach.map (fun x => x.1.nodeCount)).sum
termination_by p => sizeOf p
decreasing_by
  have h := List.sizeOf_lt_of_mem x.2
  simp only [Position.mk.sizeOf_spec]
  omega

/-- The names of a position tree in pre-order, depth-first order. -/
def Position.preorderNames : Position → List String
  | .mk _ name nested => name :: (nested.attach.map (fun x => x.1.preorderNames)).flatten
termination_by p => sizeOf p
decreasing_by
  have h := List.sizeOf_lt_of_mem x.2
  simp only [Position.mk.sizeOf_spec]
  omega

/-- The nested-list lengths of a position tree in pre-order, depth-first
order. -/
def Position.childCounts : Position → List ℕ
  | .mk _ _ nested => nested.length :: (nested.attach.map (fun x => x.1.childCounts)).flatten
termination_by p => sizeOf p
decreasing_by
  have h := List.sizeOf_lt_of_mem x.2
  simp only [Position.mk.sizeOf_spec]
  omega

/-- The number of nodes of a model tree. -/
def Model.nodeCount : Model → ℕ
  | .mk _ _ _ _ nested _ _ => 1 + (nested.attach.map (fun x => x.1.nodeCount)).sum
termination_by m => sizeOf m
decreasing_by
  have h := List.sizeOf_lt_of_mem x.2
  simp only [Model.mk.sizeOf_spec]
  omega

/-- The names of a model tree in pre-order, depth-first order. -/
def Model.preorderNames : Model → List String
  | .mk _ _ _ _ nested nm _ => nm :: (nested.attach.map (fun x => x.1.preorderNames)).flatten
termination_by m => sizeOf m
decreasing_by
  have h := List.sizeOf_lt_of_mem x.2
  simp only [Model.mk.sizeOf_spec]
  omega

/-- The nested-list lengths of a model tree in pre-order, depth-first
order. -/
def Model.childCounts : Model → List ℕ
  | .mk _ _ _ _ nested _ _ =>
    nested.length :: (nested.attach.map (fun x => x.1.childCounts)).flatten
termination_by m => sizeOf m
decreasing_by
  have h := List.sizeOf_lt_of_mem x.2
  simp only [Model.mk.sizeOf_spec]
  omega

/-- The vertex lists of a model tree in pre-order, depth-first order. -/
def Model.preorderVertexLists : Model → List (List Vertex)
  | .mk vl _ _ _ nested _ _ =>
    vl :: (nested.attach.map (fun x => x.1.preorderVertexLists)).flatten
termination_by m => sizeOf m
decreasing_by
  have h := List.sizeOf_lt_of_mem x.2
  simp only [Model.mk.sizeOf_spec]
  omega

/-- Pre-order induction for position trees: to prove a property of every
position, prove it of every node assuming it of each nested position. -/
theorem positionInductionOn {motive : Position → Prop} (p : Position)
    (node : ∀ model name nested,
      (∀ q ∈ nested, motive q) → motive (.mk model name nested)) :
    motive p :=
  match p with
  | .mk model name nested =>
    node model name nested (fun q _hq => positionInductionOn q node)
termination_by sizeOf p
decreasing_by
  have h2 := List.sizeOf_lt_of_mem _hq
  simp only [Position.mk.sizeOf_spec]
  omega

/-- Pre-order induction for model trees: to prove a property of every model,
prove it of every node assuming it of each nested model. -/
theorem modelInductionOn {motive : Model → Prop} (m : Model)
    (node : ∀ vl pl cl mx nested nm vis,
      (∀ q ∈ nested, motive q) → motive (.mk vl pl cl mx nested nm vis)) :
    motive m :=
  match m with
  | .mk vl pl cl mx nested nm vis =>
    node vl pl cl mx nested nm vis (fun q _hq => modelInductionOn q node)
termination_by sizeOf m
decreasing_by
  have h2 := List.sizeOf_lt_of_mem _hq
  simp only [Model.mk.sizeOf_spec]
  omega

/-! ## Sample scene objects, used by the concrete witnesses -/

/-- The 4×4 identity matrix. -/
def identityMat : Matrix ℚ :=
  Matrix.buildFromColumns ⟨1, 0, 0, 0⟩ ⟨0, 1, 0, 0⟩ ⟨0, 0, 1, 0⟩ ⟨0, 0, 0, 1⟩

/-- A sample perspective camera with bounds l=0, r=2, b=0, t=2. -/
def sampleCamera : Camera := ⟨true, 0, 2, 0, 2, 1⟩

/-- A sample invisible leaf model. -/
def sampleInnerModel : Model := .mk [⟨2, 3, -1⟩] [] [] identityMat [] "inner" false

/-- A sample invisible model with one vertex, one primitive, one color and
one nested model. -/
def sampleOuterModel : Model :=
  .mk [⟨1, 1, -1⟩] [⟨[0]⟩] [⟨1, 0, 0⟩] identityMat [sampleInnerModel] "outer" false

/-- A sample position tree whose root model is invisible and which has one
nested position. -/
def samplePosition : Position :=
  .mk sampleOuterModel "root" [.mk sampleInnerModel "child" []]

/-! ## Theorems -/

/-- In `ℚ`, folding the 2 of the scale numerator against the 2 of the skew
denominator: `2/a * (b/2) = b/a` (holds also when `a = 0`, both sides then
being `0`). -/
lemma two_div_mul_half (a b : ℚ) : 2 / a * (b / 2) = b / a := by
  rw [div_mul_div_comm, mul_comm a 2, mul_div_mul_left _ _ (two_ne_zero)]

/-- C1: for all rational bounds `l, r, b, t`, `build l r b t` is exactly the
product scale-matrix × skew-matrix (scale applied after skew, in that order),
with skew the identity except third column ((r+l)/2, (t+b)/2, 1, 0) and scale
diagonal (2/(r−l), 2/(t−b), 1, 1); equivalently its rows are
(2/(r−l), 0, (r+l)/(r−l), 0), (0, 2/(t−b), (t+b)/(t−b), 0), (0,0,1,0),
(0,0,0,1). -/
theorem build_eq_scale_times_skew (l r b t : ℚ) :
    build l r b t = (scaleMatrixSpec l r b t).timesMatrix (skewMatrixSpec l r b t) ∧
    build l r b t = Matrix.buildFromColumns
      ⟨2 / (r - l), 0, 0, 0⟩
      ⟨0, 2 / (t - b), 0, 0⟩
      ⟨(r + l) / (r - l), (t + b) / (t - b), 1, 0⟩
      ⟨0, 0, 0, 1⟩ := by
  constructor
  · rfl
  · simp only [build, buildCore, Matrix.buildFromColumns, Matrix.timesMatrix,
      Matrix.timesVector, Matrix.mk.injEq, Vector.mk.injEq]
    norm_num [two_div_mul_half]

/-- C7: `build (-1) 1 (-1) 1` (the identity bounds) is exactly the 4×4
identity matrix. -/
theorem build_identity_bounds :
    build (-1) 1 (-1) 1 =
      Matrix.buildFromColumns ⟨1, 0, 0, 0⟩ ⟨0, 1, 0, 0⟩ ⟨0, 0, 1, 0⟩ ⟨0, 0, 0, 1⟩ := by
  simp only [build, buildCore, Matrix.buildFromColumns, Matrix.timesMatrix,
    Matrix.timesVector, Matrix.mk.injEq, Vector.mk.injEq]
  norm_num

/-- C8: `build 0 2 0 2` has third column (1, 1, 1, 0), and applying it to the
vertex (1, 1, −1) yields the vertex (0, 0, −1). -/
theorem build_asymmetric_skew :
    (build 0 2 0 2).c3 = ⟨1, 1, 1, 0⟩ ∧
    (build 0 2 0 2).timesVertex ⟨1, 1, -1⟩ = ⟨0, 0, -1⟩ := by
  constructor
  · simp only [build, buildCore, Matrix.buildFromColumns, Matrix.timesMatrix,
      Matrix.timesVector, Vector.mk.injEq]
    norm_num
  · simp only [build, buildCore, Matrix.buildFromColumns, Matrix.timesMatrix,
      Matrix.timesVector, Matrix.timesVertex, Vertex.mk.injEq]
    norm_num

/-- C6 counterexample: `Infinity` is a non-finite JavaScript number, yet
`build(Infinity, 1, -1, 1)` does not throw — the `typeof` guard accepts it,
refuting the claim that non-finite bounds fail with `InvalidArgument`. -/
theorem buildJS_accepts_infinite_bound :
    exceptIsOk (buildJS (.num .posInf) (.num (.fin 1)) (.num (.fin (-1))) (.num (.fin 1)))
      = true := rfl

/-- C6 (amended): `build` fails with the invalid-argument error exactly when
some bound fails the `typeof ... == "number"` test; in particular
`build("a", 1, -1, 1)` throws, while every four JavaScript numbers — finite
or not — yield a matrix without raising. -/
theorem buildJS_error_iff_nonnumber :
    (∀ l r b t : JSVal, exceptIsOk (buildJS l r b t) =
      (l.typeofIsNumber && r.typeofIsNumber && b.typeofIsNumber && t.typeofIsNumber)) ∧
    buildJS (.str "a") (.num (.fin 1)) (.num (.fin (-1))) (.num (.fin 1)) =
      .error "L, R, B, T, and near must be numerical" ∧
    (∀ ln rn bn tn : JSNum,
      exceptIsOk (buildJS (.num ln) (.num rn) (.num bn) (.num tn)) = true) := by
  refine ⟨?_, rfl, ?_⟩
  · intro l r b t
    cases l <;> cases r <;> cases b <;> cases t <;> rfl
  · intro ln rn bn tn
    rfl

/-! ### Unfolding lemmas for the tree recursions -/

/-- Unfolds `view2cameraNestedModel` on a constructed model, with the
`attach` bookkeeping of the recursion removed. -/
lemma view2cameraNestedModel_mk (vl : List Vertex) (pl : List Primitive)
    (cl : List Color) (mx : Matrix ℚ) (nested : List Model) (nm : String)
    (vis : Bool) (camera : Camera) :
    view2cameraNestedModel (.mk vl pl cl mx nested nm vis) camera =
      .mk (vl.map (fun v => camera.getNormalizeMatrix.timesVertex v)) pl cl mx
          (nested.map (fun q => view2cameraNestedModel q camera)) nm vis := by
  rw [view2cameraNestedModel]
  simp only [view2cameraModel, Model.vertexList, Model.primitiveList, Model.colorList,
    Model.matrix, Model.name, Model.visible]
  congr 1
  exact List.attach_map_val nested (fun q => view2cameraNestedModel q camera)

/-- Unfolds `view2cameraPosition` on a constructed position, with the
`attach` bookkeeping of the recursion removed. -/
lemma view2cameraPosition_mk (model : Model) (name : String)
    (nested : List Position) (camera : Camera) :
    view2cameraPosition (.mk model name nested) camera =
      .mk (if model.visible then view2cameraNestedModel model camera else model) name
          (nested.map (fun q => view2cameraPosition q camera)) := by
  simp only [view2cameraPosition]
  congr 1
  exact List.attach_map_val nested (fun q => view2cameraPosition q camera)

/-- Unfolds `Position.nodeCount` on a constructed position. -/
lemma position_nodeCount_mk (m : Model) (n : String) (nested : List Position) :
    (Position.mk m n nested).nodeCount = 1 + (nested.map Position.nodeCount).sum := by
  rw [Position.nodeCount]
  simp only [List.attach_map_val]

/-- Unfolds `Position.preorderNames` on a constructed position. -/
lemma position_preorderNames_mk (m : Model) (n : String) (nested : List Position) :
    (Position.mk m n nested).preorderNames =
      n :: (nested.map Position.preorderNames).flatten := by
  rw [Position.preorderNames]
  simp only [List.attach_map_val]

/-- Unfolds `Position.childCounts` on a constructed position. -/
lemma position_childCounts_mk (m : Model) (n : String) (nested : List Position) :
    (Position.mk m n nested).childCounts =
      nested.length :: (nested.map Position.childCounts).flatten := by
  rw [Position.childCounts]
  simp only [List.attach_map_val]

/-- Unfolds `Model.nodeCount` on a constructed model. -/
lemma model_nodeCount_mk (vl : List Vertex) (pl : List Primitive) (cl : List Color)
    (mx : Matrix ℚ) (nested : List Model) (nm : String) (vis : Bool) :
    (Model.mk vl pl cl mx nested nm vis).nodeCount =
      1 + (nested.map Model.nodeCount).sum := by
  rw [Model.nodeCount]
  simp only [List.attach_map_val]

/-- Unfolds `Model.preorderNames` on a constructed model. -/
lemma model_preorderNames_mk (vl : List Vertex) (pl : List Primitive) (cl : List Color)
    (mx : Matrix ℚ) (nested : List Model) (nm : String) (vis : Bool) :
    (Model.mk vl pl cl mx nested nm vis).preorderNames =
      nm :: (nested.map Model.preorderNames).flatten := by
  rw [Model.preorderNames]
  simp only [List.attach_map_val]

/-- Unfolds `Model.childCounts` on a constructed model. -/
lemma model_childCounts_mk (vl : List Vertex) (pl : List Primitive) (cl : List Color)
    (mx : Matrix ℚ) (nested : List Model) (nm : String) (vis : Bool) :
    (Model.mk vl pl cl mx nested nm vis).childCounts =
      nested.length :: (nested.map Model.childCounts).flatten := by
  rw [Model.childCounts]
  simp only [List.attach_map_val]

/-- Unfolds `Model.preorderVertexLists` on a constructed model. -/
lemma model_preorderVertexLists_mk (vl : List Vertex) (pl : List Primitive)
    (cl : List Color) (mx : Matrix ℚ) (nested : List Model) (nm : String) (vis : Bool) :
    (Model.mk vl pl cl mx nested nm vis).preorderVertexLists =
      vl :: (nested.map Model.preorderVertexLists).flatten := by
  rw [Model.preorderVertexLists]
  simp only [List.attach_map_val]

/-! ### Topology-preservation lemmas -/

/-- `view2cameraPosition` preserves the node count. -/
lemma v2cPosition_nodeCount (camera : Camera) (p : Position) :
    (view2cameraPosition p camera).nodeCount = p.nodeCount := by
  induction p using positionInductionOn with
  | node model name nested ih =>
    rw [view2cameraPosition_mk, position_nodeCount_mk, position_nodeCount_mk,
      List.map_map]
    have h2 : nested.map (Position.nodeCount ∘ fun q => view2cameraPosition q camera) =
        nested.map Position.nodeCount :=
      List.map_congr_left (fun q hq => ih q hq)
    rw [h2]

/-- `view2cameraPosition` preserves the pre-order name sequence. -/
lemma v2cPosition_preorderNames (camera : Camera) (p : Position) :
    (view2cameraPosition p camera).preorderNames = p.preorderNames := by
  induction p using positionInductionOn with
  | node model name nested ih =>
    rw [view2cameraPosition_mk, position_preorderNames_mk, position_preorderNames_mk,
      List.map_map]
    have h2 : nested.map (Position.preorderNames ∘ fun q => view2cameraPosition q camera) =
        nested.map Position.preorderNames :=
      List.map_congr_left (fun q hq => ih q hq)
    rw [h2]

/-- `view2cameraPosition` preserves the pre-order nested-list lengths. -/
lemma v2cPosition_childCounts (camera : Camera) (p : Position) :
    (view2cameraPosition p camera).childCounts = p.childCounts := by
  induction p using positionInductionOn with
  | node model name nested ih =>
    rw [view2cameraPosition_mk, position_childCounts_mk, position_childCounts_mk,
      List.map_map, List.length_map]
    have h2 : nested.map (Position.childCounts ∘ fun q => view2cameraPosition q camera) =
        nested.map Position.childCounts :=
      List.map_congr_left (fun q hq => ih q hq)
    rw [h2]

/-- `view2cameraNestedModel` preserves the node count. -/
lemma v2cNestedModel_nodeCount (camera : Camera) (m : Model) :
    (view2cameraNestedModel m camera).nodeCount = m.nodeCount := by
  induction m using modelInductionOn with
  | node vl pl cl mx nested nm vis ih =>
    rw [view2cameraNestedModel_mk, model_nodeCount_mk, model_nodeCount_mk,
      List.map_map]
    have h2 : nested.map (Model.nodeCount ∘ fun q => view2cameraNestedModel q camera) =
        nested.map Model.nodeCount :=
      List.map_congr_left (fun q hq => ih q hq)
    rw [h2]

/-- `view2cameraNestedModel` preserves the pre-order name sequence. -/
lemma v2cNestedModel_preorderNames (camera : Camera) (m : Model) :
    (view2cameraNestedModel m camera).preorderNames = m.preorderNames := by
  induction m using modelInductionOn with
  | node vl pl cl mx nested nm vis ih =>
    rw [view2cameraNestedModel_mk, model_preorderNames_mk, model_preorderNames_mk,
      List.map_map]
    have h2 : nested.map (Model.preorderNames ∘ fun q => view2cameraNestedModel q camera) =
        nested.map Model.preorderNames :=
      List.map_congr_left (fun q hq => ih q hq)
    rw [h2]

/-- `view2cameraNestedModel` preserves the pre-order nested-list lengths. -/
lemma v2cNestedModel_childCounts (camera : Camera) (m : Model) :
    (view2cameraNestedModel m camera).childCounts = m.childCounts := by
  induction m using modelInductionOn with
  | node vl pl cl mx nested nm vis ih =>
    rw [view2cameraNestedModel_mk, model_childCounts_mk, model_childCounts_mk,
      List.map_map, List.length_map]
    have h2 : nested.map (Model.childCounts ∘ fun q => view2cameraNestedModel q camera) =
        nested.map Model.childCounts :=
      List.map_congr_left (fun q hq => ih q hq)
    rw [h2]

/-- `view2cameraNestedModel` transforms the vertex list of every node of the
model tree, element-wise by the camera's normalize matrix. -/
lemma v2cNestedModel_preorderVertexLists (camera : Camera) (m : Model) :
    (view2cameraNestedModel m camera).preorderVertexLists =
      m.preorderVertexLists.map
        (fun l => l.map (fun v => camera.getNormalizeMatrix.timesVertex v)) := by
  induction m using modelInductionOn with
  | node vl pl cl mx nested nm vis ih =>
    rw [view2cameraNestedModel_mk, model_preorderVertexLists_mk,
      model_preorderVertexLists_mk]
    simp only [List.map_cons, List.map_flatten, List.map_map]
    have h2 : nested.map (Model.preorderVertexLists ∘ fun q => view2cameraNestedModel q camera) =
        nested.map
          ((List.map fun l => l.map fun v => camera.getNormalizeMatrix.timesVertex v) ∘
            Model.preorderVertexLists) :=
      List.map_congr_left (fun q hq => ih q hq)
    rw [h2]

/-! ### Claim theorems for the tree transformers -/

/-- C2: `view2cameraModel` maps each vertex, in order, by the camera's
normalize matrix (same length; entry i of the output is the transform of
entry i of the input for every index), and carries the primitive list, color
list, local transform matrix, name and visible flag over unchanged. -/
theorem view2cameraModel_elementwise (model : Model) (camera : Camera) :
    (view2cameraModel model camera).vertexList.length = model.vertexList.length ∧
    (∀ i : ℕ, (view2cameraModel model camera).vertexList[i]? =
      (model.vertexList[i]?).map (fun v => camera.getNormalizeMatrix.timesVertex v)) ∧
    (view2cameraModel model camera).primitiveList = model.primitiveList ∧
    (view2cameraModel model camera).colorList = model.colorList ∧
    (view2cameraModel model camera).matrix = model.matrix ∧
    (view2cameraModel model camera).name = model.name ∧
    (view2cameraModel model camera).visible = model.visible := by
  cases model with
  | mk vl pl cl mx nested nm vis =>
    simp [view2cameraModel, Model.vertexList, Model.primitiveList, Model.colorList,
      Model.matrix, Model.name, Model.visible, List.getElem?_map]

/-- C3: a position whose model is invisible keeps its model's vertex list
untransformed, while its nested positions are all recursively transformed,
in original order, regardless of the parent's visibility. -/
theorem view2cameraPosition_invisible (position : Position) (camera : Camera)
    (h : position.model.visible = false) :
    (view2cameraPosition position camera).model.vertexList =
      position.model.vertexList ∧
    (view2cameraPosition position camera).nestedPositions =
      position.nestedPositions.map (fun q => view2cameraPosition q camera) := by
  cases position with
  | mk model name nested =>
    simp only [Position.model] at h
    rw [view2cameraPosition_mk]
    simp [Position.model, Position.nestedPositions, h]

/-- C3 witness: instantiated at the sample position, whose root model is
invisible and which has one nested position. -/
theorem view2cameraPosition_invisible_witness :
    samplePosition.model.visible = false ∧
    ((view2cameraPosition samplePosition sampleCamera).model.vertexList =
        samplePosition.model.vertexList ∧
      (view2cameraPosition samplePosition sampleCamera).nestedPositions =
        samplePosition.nestedPositions.map (fun q => view2cameraPosition q sampleCamera)) :=
  ⟨rfl, view2cameraPosition_invisible samplePosition sampleCamera rfl⟩

/-- C4: both tree transformers preserve the topology — node count, pre-order
name sequence, and the nested-list length at every node (compared in
pre-order) — of the position tree and of the model tree. -/
theorem view2camera_topology_preserved (p : Position) (m : Model) (camera : Camera) :
    (view2cameraPosition p camera).nodeCount = p.nodeCount ∧
    (view2cameraPosition p camera).preorderNames = p.preorderNames ∧
    (view2cameraPosition p camera).childCounts = p.childCounts ∧
    (view2cameraNestedModel m camera).nodeCount = m.nodeCount ∧
    (view2cameraNestedModel m camera).preorderNames = m.preorderNames ∧
    (view2cameraNestedModel m camera).childCounts = m.childCounts :=
  ⟨v2cPosition_nodeCount camera p, v2cPosition_preorderNames camera p,
   v2cPosition_childCounts camera p, v2cNestedModel_nodeCount camera m,
   v2cNestedModel_preorderNames camera m, v2cNestedModel_childCounts camera m⟩

/-- C5: `view2cameraNestedModel` performs no visibility check — even for an
invisible model, the vertex list of the node itself and of every model in
its nested tree (pre-order) is transformed, and every nested model is
recursively transformed in order. -/
theorem view2cameraNestedModel_ignores_visible (m : Model) (camera : Camera)
    (h : m.visible = false) :
    (view2cameraNestedModel m camera).preorderVertexLists =
      m.preorderVertexLists.map
        (fun l => l.map (fun v => camera.getNormalizeMatrix.timesVertex v)) ∧
    (view2cameraNestedModel m camera).nestedModels =
      m.nestedModels.map (fun q => view2cameraNestedModel q camera) := by
  refine ⟨v2cNestedModel_preorderVertexLists camera m, ?_⟩
  cases m with
  | mk vl pl cl mx nested nm vis =>
    rw [view2cameraNestedModel_mk]
    simp [Model.nestedModels]

/-- C5 witness: instantiated at the sample invisible model, which has an
invisible nested model. -/
theorem view2cameraNestedModel_ignores_visible_witness :
    sampleOuterModel.visible = false ∧
    ((view2cameraNestedModel sampleOuterModel sampleCamera).preorderVertexLists =
        sampleOuterModel.preorderVertexLists.map
          (fun l => l.map (fun v => sampleCamera.getNormalizeMatrix.timesVertex v)) ∧
      (view2cameraNestedModel sampleOuterModel sampleCamera).nestedModels =
        sampleOuterModel.nestedModels.map
          (fun q => view2cameraNestedModel q sampleCamera)) :=
  ⟨rfl, view2cameraNestedModel_ignores_visible sampleOuterModel sampleCamera rfl⟩

/-- C10: the exported `view2cameraModel` carries the input's nested-model
list through untransformed, while `view2cameraNestedModel` rebuilds the
nested list by recursively transforming each entry in order. -/
theorem view2cameraModel_nestedModels_passthrough (m : Model) (camera : Camera) :
    (view2cameraModel m camera).nestedModels = m.nestedModels ∧
    (view2cameraNestedModel m camera).nestedModels =
      m.nestedModels.map (fun q => view2cameraNestedModel q camera) := by
  constructor
  · cases m with
    | mk vl pl cl mx nested nm vis =>
      simp [view2cameraModel, Model.nestedModels]
  · cases m with
    | mk vl pl cl mx nested nm vis =>
      rw [view2cameraNestedModel_mk]
      simp [Model.nestedModels]

end Renderer
